import Mathlib

/-!
Shallow embedding of the `hub` crate (oodx/hub): a dependency-aggregation
facade whose `src/lib.rs` consists of feature-gated re-export declarations,
inline convenience modules and two utility functions.  We model the
declaration list of `lib.rs` (and of the shaped source files) as data, and
conditional compilation as evaluation of `cfg` conditions against a feature
selection.
-/

/-- A compile-time feature selection: which Cargo feature names are enabled. -/
def FeatureSet : Type := String → Bool

/-- A `cfg` condition on a declaration: either absent, or a single
positive `feature = "name"` gate, exactly as in the source. -/
inductive Cfg where
  | always : Cfg
  | feature : String → Cfg
  deriving DecidableEq

/-- Evaluation of a `cfg` condition under a feature selection. -/
def Cfg.eval : Cfg → FeatureSet → Bool
  | .always, _ => true
  | .feature n, s => s n

/-- An item inside an inline module: all such items in the source are
`use` declarations. -/
inductive SubItem where
  | useSuper : Cfg → String → SubItem
  | useGlob : Cfg → String → SubItem
  deriving DecidableEq

/-- A top-level item of a source file. -/
inductive Item where
  | useCrate : Cfg → String → Item
  | useGlob : Cfg → String → Item
  | useNames : Cfg → String → List String → Item
  | typeAlias : Cfg → String → Item
  | modInline : Cfg → String → List SubItem → Item
  | modFile : Cfg → String → Item
  | fnDef : String → Item
  deriving DecidableEq

/-- The members of `pub mod prelude` in `lib.rs`, in source order. -/
def preludeItems : List SubItem :=
  [ .useSuper (.feature "anyhow") "anyhow",
    .useSuper (.feature "base64") "base64",
    .useSuper (.feature "chrono") "chrono",
    .useSuper (.feature "clap") "clap",
    .useSuper (.feature "glob") "glob",
    .useSuper (.feature "lazy_static") "lazy_static",
    .useSuper (.feature "libc") "libc",
    .useSuper (.feature "portable-pty") "portable_pty",
    .useSuper (.feature "rand") "rand",
    .useSuper (.feature "regex") "regex",
    .useSuper (.feature "serde") "serde",
    .useSuper (.feature "serde_json") "serde_json",
    .useSuper (.feature "serde_yaml") "serde_yaml",
    .useSuper (.feature "strip-ansi-escapes") "strip_ansi_escapes",
    .useSuper (.feature "tokio") "tokio",
    .useSuper (.feature "urlencoding") "urlencoding",
    .useSuper (.feature "uuid") "uuid",
    .useSuper (.feature "unicode-width") "unicode_width",
    .useSuper (.feature "criterion") "criterion",
    .useSuper (.feature "thiserror") "thiserror",
    .useSuper (.feature "tempfile") "tempfile" ]

/-- The public declarations of `src/lib.rs`, in source order. -/
def hubDecls : List Item :=
  [ .useCrate (.feature "anyhow") "anyhow",
    .useCrate (.feature "base64") "base64",
    .useCrate (.feature "chrono") "chrono",
    .useCrate (.feature "clap") "clap",
    .useCrate (.feature "glob") "glob",
    .useCrate (.feature "lazy_static") "lazy_static",
    .useCrate (.feature "libc") "libc",
    .useCrate (.feature "portable-pty") "portable_pty",
    .useCrate (.feature "rand") "rand",
    .useCrate (.feature "regex") "regex",
    .useCrate (.feature "serde") "serde",
    .useCrate (.feature "serde_json") "serde_json",
    .useCrate (.feature "serde_yaml") "serde_yaml",
    .useCrate (.feature "strip-ansi-escapes") "strip_ansi_escapes",
    .useCrate (.feature "tokio") "tokio",
    .useCrate (.feature "urlencoding") "urlencoding",
    .useCrate (.feature "uuid") "uuid",
    .useCrate (.feature "unicode-width") "unicode_width",
    .useCrate (.feature "criterion") "criterion",
    .useCrate (.feature "thiserror") "thiserror",
    .useCrate (.feature "tempfile") "tempfile",
    .modInline .always "prelude" preludeItems,
    .modFile (.feature "colors") "colors",
    .modInline .always "text_ext"
      [ .useSuper (.feature "regex") "regex",
        .useSuper (.feature "lazy_static") "lazy_static",
        .useSuper (.feature "strip-ansi-escapes") "strip_ansi_escapes" ],
    .modInline .always "data_ext"
      [ .useSuper (.feature "serde") "serde",
        .useSuper (.feature "serde_json") "serde_json",
        .useSuper (.feature "serde_yaml") "serde_yaml",
        .useSuper (.feature "base64") "base64" ],
    .modInline .always "time_ext"
      [ .useSuper (.feature "chrono") "chrono",
        .useSuper (.feature "uuid") "uuid" ],
    .modInline .always "web_ext"
      [ .useSuper (.feature "urlencoding") "urlencoding" ],
    .modInline .always "system_ext"
      [ .useSuper (.feature "libc") "libc",
        .useSuper (.feature "glob") "glob" ],
    .modInline .always "terminal_ext"
      [ .useSuper (.feature "portable-pty") "portable_pty" ],
    .modInline .always "random_ext"
      [ .useSuper (.feature "rand") "rand" ],
    .modInline .always "async_ext"
      [ .useSuper (.feature "tokio") "tokio" ],
    .modInline .always "cli_ext"
      [ .useSuper (.feature "clap") "clap",
        .useSuper (.feature "anyhow") "anyhow" ],
    .modInline .always "error_ext"
      [ .useSuper (.feature "anyhow") "anyhow" ],
    .modInline .always "test_ext"
      [ .useSuper (.feature "criterion") "criterion",
        .useSuper (.feature "tempfile") "tempfile" ],
    .fnDef "version",
    .fnDef "enabled_features" ]

/-- Does a sub-item introduce the named member under a feature selection. -/
def SubItem.definesName : SubItem → FeatureSet → String → Bool
  | .useSuper c n, s, m => c.eval s && n == m
  | .useGlob _ _, _, _ => false

/-- Does a top-level item introduce a module of the given name. -/
def Item.introducesModule : Item → FeatureSet → String → Bool
  | .useCrate c n, s, m => c.eval s && n == m
  | .modInline c n _, s, m => c.eval s && n == m
  | .modFile c n, s, m => c.eval s && n == m
  | _, _, _ => false

/-- Existence of a top-level module `hub::m` under a feature selection. -/
def hubModuleExists (s : FeatureSet) (m : String) : Bool :=
  hubDecls.any (fun it => it.introducesModule s m)

/-- Membership of `m` in the inline module `hub::p`. -/
def hubHasSubItem (s : FeatureSet) (p m : String) : Bool :=
  hubDecls.any (fun it =>
    match it with
    | .modInline c n items =>
        c.eval s && n == p && items.any (fun si => si.definesName s m)
    | _ => false)

/-- Existence of a top-level re-export of a wrapped crate named `m`. -/
def topCrateReexported (s : FeatureSet) (m : String) : Bool :=
  hubDecls.any (fun it =>
    match it with
    | .useCrate c n => c.eval s && n == m
    | _ => false)

/-- Transcription of the body of `enabled_features()` in `lib.rs`:
a vector built by a sequence of feature-gated pushes. -/
def enabled_features (s : FeatureSet) : List String :=
  let features : List String := []
  let features := if s "anyhow" then features ++ ["anyhow"] else features
  let features := if s "base64" then features ++ ["base64"] else features
  let features := if s "chrono" then features ++ ["chrono"] else features
  let features := if s "clap" then features ++ ["clap"] else features
  let features := if s "glob" then features ++ ["glob"] else features
  let features := if s "lazy_static" then features ++ ["lazy_static"] else features
  let features := if s "libc" then features ++ ["libc"] else features
  let features := if s "portable-pty" then features ++ ["portable-pty"] else features
  let features := if s "rand" then features ++ ["rand"] else features
  let features := if s "regex" then features ++ ["regex"] else features
  let features := if s "serde" then features ++ ["serde"] else features
  let features := if s "serde_json" then features ++ ["serde_json"] else features
  let features := if s "serde_yaml" then features ++ ["serde_yaml"] else features
  let features := if s "strip-ansi-escapes" then features ++ ["strip-ansi-escapes"] else features
  let features := if s "tokio" then features ++ ["tokio"] else features
  let features := if s "urlencoding" then features ++ ["urlencoding"] else features
  let features := if s "uuid" then features ++ ["uuid"] else features
  let features := if s "unicode-width" then features ++ ["unicode-width"] else features
  let features := if s "criterion" then features ++ ["criterion"] else features
  let features := if s "thiserror" then features ++ ["thiserror"] else features
  let features := if s "tempfile" then features ++ ["tempfile"] else features
  features

/-- The 21 curated feature names, in the declaration order of `lib.rs`. -/
def featureTable : List String :=
  [ "anyhow", "base64", "chrono", "clap", "glob", "lazy_static", "libc",
    "portable-pty", "rand", "regex", "serde", "serde_json", "serde_yaml",
    "strip-ansi-escapes", "tokio", "urlencoding", "uuid", "unicode-width",
    "criterion", "thiserror", "tempfile" ]

/-- The (feature name, module name) pairs of the 21 curated top-level
re-exports, in the declaration order of `lib.rs`. -/
def curatedPairs : List (String × String) :=
  [ ("anyhow", "anyhow"), ("base64", "base64"), ("chrono", "chrono"),
    ("clap", "clap"), ("glob", "glob"), ("lazy_static", "lazy_static"),
    ("libc", "libc"), ("portable-pty", "portable_pty"), ("rand", "rand"),
    ("regex", "regex"), ("serde", "serde"), ("serde_json", "serde_json"),
    ("serde_yaml", "serde_yaml"), ("strip-ansi-escapes", "strip_ansi_escapes"),
    ("tokio", "tokio"), ("urlencoding", "urlencoding"), ("uuid", "uuid"),
    ("unicode-width", "unicode_width"), ("criterion", "criterion"),
    ("thiserror", "thiserror"), ("tempfile", "tempfile") ]

/-- Group and convenience feature names appearing in the crate docs, the
Cargo feature graph and the tests, but never pushed by `enabled_features`. -/
def groupFeatures : List String :=
  [ "text-ext", "data-ext", "time-ext", "web-ext", "system-ext",
    "terminal-ext", "random-ext", "async-ext", "cli-ext", "error-ext",
    "test-ext", "common-ext", "core-ext", "extended-ext", "dev-ext",
    "core", "json", "serde-derive", "clap-full", "tokio-full" ]

/-- The eleven shaped convenience module names declared in `lib.rs`. -/
def shapedModNames : List String :=
  [ "text_ext", "data_ext", "time_ext", "web_ext", "system_ext",
    "terminal_ext", "random_ext", "async_ext", "cli_ext", "error_ext",
    "test_ext" ]

/-- The module name a top-level item introduces, independent of features. -/
def Item.moduleName : Item → Option String
  | .useCrate _ n => some n
  | .modInline _ n _ => some n
  | .modFile _ n => some n
  | _ => none

/-- All module names that can ever exist at the top level of `hub`. -/
def hubModuleNames : List String := hubDecls.filterMap Item.moduleName

/-- The static feature table as recovered from the declaration listing:
the (feature, module) pair of every gated top-level `pub use`. -/
def tableFromDecls : List (String × String) :=
  hubDecls.filterMap (fun it =>
    match it with
    | .useCrate (.feature f) n => some (f, n)
    | _ => none)

/-- What a top-level path of `hub` resolves to. -/
inductive Target where
  | crate : String → Target
  | inline : String → Target
  | file : String → Target
  deriving DecidableEq

/-- Resolution of a single item against a requested module name. -/
def Item.resolves : Item → FeatureSet → String → Option Target
  | .useCrate c n, s, m => if c.eval s && n == m then some (.crate n) else none
  | .modInline c n _, s, m => if c.eval s && n == m then some (.inline n) else none
  | .modFile c n, s, m => if c.eval s && n == m then some (.file n) else none
  | _, _, _ => none

/-- First successful resolution in a declaration list. -/
def resolveIn : List Item → FeatureSet → String → Option Target
  | [], _, _ => none
  | it :: rest, s, m =>
      match it.resolves s m with
      | some t => some t
      | none => resolveIn rest s m

/-- Resolution of `hub::m` against the declaration list of `lib.rs`. -/
def resolveTop (s : FeatureSet) (m : String) : Option Target :=
  resolveIn hubDecls s m

/-- The declarations of `src/regex.rs`. -/
def regexFileDecls : List Item :=
  [ .useGlob .always "regex",
    .useNames .always "regex" ["Regex", "RegexBuilder", "Captures", "Match", "Replacer"],
    .useNames .always "regex" ["RegexSet", "RegexSetBuilder"],
    .typeAlias .always "Result" ]

/-- The declarations of `src/serde.rs`. -/
def serdeFileDecls : List Item :=
  [ .useGlob .always "serde",
    .useNames .always "serde" ["Deserialize", "Serialize", "Deserializer", "Serializer"],
    .useNames .always "serde::de" ["self", "DeserializeOwned"],
    .useNames .always "serde::ser" ["self", "SerializeStruct", "SerializeSeq", "SerializeMap"] ]

/-- The declarations of `src/serde_json.rs`. -/
def serde_jsonFileDecls : List Item :=
  [ .useGlob .always "serde_json",
    .typeAlias .always "Map",
    .useNames .always "serde_json" ["from_str", "to_string", "from_value", "to_value", "Value"] ]

/-- The declarations of `src/chrono.rs`. -/
def chronoFileDecls : List Item :=
  [ .useGlob .always "chrono",
    .useNames .always "chrono"
      ["DateTime", "Utc", "Local", "Duration", "NaiveDateTime", "NaiveDate", "NaiveTime"],
    .useNames .always "chrono" ["TimeZone"],
    .modInline .always "prelude" [.useGlob .always "chrono::prelude"] ]

/-- The declarations of `src/clap.rs`. -/
def clapFileDecls : List Item :=
  [ .useGlob .always "clap",
    .useNames .always "clap" ["Arg", "ArgMatches", "Command"],
    .useNames (.feature "clap-full") "clap" ["Parser", "Args", "Subcommand", "ValueEnum"],
    .useNames .always "clap" ["ArgAction", "builder"] ]

/-- The declarations of `src/tokio.rs`. -/
def tokioFileDecls : List Item :=
  [ .useGlob .always "tokio",
    .useNames .always "tokio" ["main", "test", "spawn"],
    .useNames (.feature "tokio-full") "tokio" ["join", "select", "time"] ]

/-- The declarations of `src/error.rs`. -/
def errorFileDecls : List Item :=
  [ .modInline (.feature "anyhow") "anyhow" [.useGlob .always "::anyhow"],
    .modInline (.feature "thiserror") "thiserror" [.useGlob .always "::thiserror"],
    .typeAlias (.feature "anyhow") "Result",
    .typeAlias (.feature "anyhow") "Error" ]

/-- All declarations of the seven shaped source files together. -/
def shapedFileDecls : List Item :=
  regexFileDecls ++ serdeFileDecls ++ serde_jsonFileDecls ++ chronoFileDecls ++
    clapFileDecls ++ tokioFileDecls ++ errorFileDecls

/-- Is the item a `use` re-export of a wrapped crate or of its items. -/
def Item.isReexport : Item → Bool
  | .useCrate _ _ => true
  | .useGlob _ _ => true
  | .useNames _ _ _ => true
  | _ => false

/-- Is the item a module declaration (inline or out of line). -/
def Item.isModDecl : Item → Bool
  | .modInline _ _ _ => true
  | .modFile _ _ => true
  | _ => false

/-- Is the item a convenience type alias. -/
def Item.isTypeAlias : Item → Bool
  | .typeAlias _ _ => true
  | _ => false

/-- Is the item one of the two utility functions of `lib.rs`. -/
def Item.isUtilFn : Item → Bool
  | .fnDef n => n == "version" || n == "enabled_features"
  | _ => false

/-- Does the item only re-export material of a wrapped crate (the reading
of the claim that every public item denotes a wrapped-crate item):
function definitions and original type aliases do not. -/
def Item.isWrappedReexportOnly : Item → Bool
  | .fnDef _ => false
  | .typeAlias _ _ => false
  | _ => true

/-- Helper: fold the gated-push loop over a list of feature names. -/
def pushAll (s : FeatureSet) (acc : List String) : List String → List String
  | [] => acc
  | n :: rest => pushAll s (if s n then acc ++ [n] else acc) rest

theorem pushAll_eq_filter (s : FeatureSet) :
    ∀ (l : List String) (acc : List String), pushAll s acc l = acc ++ l.filter s := by
  intro l
  induction l with
  | nil => intro acc; simp [pushAll]
  | cons n rest ih =>
      intro acc
      cases h : s n with
      | false => simp [pushAll, h, ih, List.filter_cons]
      | true => simp [pushAll, h, ih, List.filter_cons]

theorem enabled_features_eq_pushAll (s : FeatureSet) :
    enabled_features s = pushAll s [] featureTable := rfl

theorem enabled_features_eq_filter (s : FeatureSet) :
    enabled_features s = featureTable.filter s := by
  rw [enabled_features_eq_pushAll, pushAll_eq_filter]
  simp

theorem introducesModule_name {it : Item} {s : FeatureSet} {m : String}
    (h : it.introducesModule s m = true) : it.moduleName = some m := by
  cases it <;>
    simp only [Item.introducesModule, Bool.and_eq_true, beq_iff_eq] at h <;>
    first
      | simp [Item.moduleName, h.2]
      | exact absurd h (by simp)

theorem hubModuleExists_mem_names {s : FeatureSet} {m : String}
    (h : hubModuleExists s m = true) : m ∈ hubModuleNames := by
  obtain ⟨it, hmem, hit⟩ := List.any_eq_true.mp h
  exact List.mem_filterMap.mpr ⟨it, hmem, introducesModule_name hit⟩

theorem Cfg.eval_mono {s t : FeatureSet} (hst : ∀ n, s n = true → t n = true)
    (c : Cfg) (h : c.eval s = true) : c.eval t = true := by
  cases c with
  | always => rfl
  | feature n => exact hst n h

theorem SubItem.definesName_mono {s t : FeatureSet} (hst : ∀ n, s n = true → t n = true)
    (si : SubItem) (m : String) (h : si.definesName s m = true) :
    si.definesName t m = true := by
  cases si with
  | useSuper c n =>
      simp only [SubItem.definesName, Bool.and_eq_true] at h ⊢
      exact ⟨Cfg.eval_mono hst c h.1, h.2⟩
  | useGlob c p => simp [SubItem.definesName] at h

theorem Item.introducesModule_mono {s t : FeatureSet} (hst : ∀ n, s n = true → t n = true)
    (it : Item) (m : String) (h : it.introducesModule s m = true) :
    it.introducesModule t m = true := by
  cases it <;> simp only [Item.introducesModule, Bool.and_eq_true] at h ⊢ <;>
    first
      | exact ⟨Cfg.eval_mono hst _ h.1, h.2⟩
      | exact h

theorem any_mono {α : Type} {f g : α → Bool} (h : ∀ a, f a = true → g a = true)
    (l : List α) (hl : l.any f = true) : l.any g = true := by
  obtain ⟨a, hmem, ha⟩ := List.any_eq_true.mp hl
  exact List.any_eq_true.mpr ⟨a, hmem, h a ha⟩

theorem hubModuleExists_mono {s t : FeatureSet} (hst : ∀ n, s n = true → t n = true)
    (m : String) (h : hubModuleExists s m = true) : hubModuleExists t m = true := by
  exact any_mono (fun it => Item.introducesModule_mono hst it m) hubDecls h

theorem hubHasSubItem_mono {s t : FeatureSet} (hst : ∀ n, s n = true → t n = true)
    (p m : String) (h : hubHasSubItem s p m = true) : hubHasSubItem t p m = true := by
  refine any_mono (fun it hit => ?_) hubDecls h
  cases it with
  | modInline c n items =>
      simp only [Bool.and_eq_true] at hit ⊢
      exact ⟨⟨Cfg.eval_mono hst c hit.1.1, hit.1.2⟩,
        any_mono (fun si => SubItem.definesName_mono hst si m) items hit.2⟩
  | useCrate c n => simp at hit
  | useGlob c p => simp at hit
  | useNames c p ns => simp at hit
  | typeAlias c n => simp at hit
  | modFile c n => simp at hit
  | fnDef n => simp at hit

theorem not_mem_enabled_of_not_table {s : FeatureSet} {g : String}
    (hg : g ∉ featureTable) : g ∉ enabled_features s := by
  rw [enabled_features_eq_filter]
  intro h
  exact hg (List.mem_of_mem_filter h)

/-- C1 (counterexample): it is not the case that every module of the crate
exists only when some curated feature gating it is enabled: under the empty
feature selection the module `hub::prelude` exists although no curated
feature is enabled. -/
theorem C1_counterexample :
    ¬ (∀ (s : FeatureSet) (m : String), hubModuleExists s m = true →
        ∃ p, p ∈ curatedPairs ∧ m = p.2 ∧ s p.1 = true) := by
  intro h
  obtain ⟨p, _, _, hs⟩ := h (fun _ => false) "prelude" (by decide)
  exact Bool.false_ne_true hs

/-- C1 (amended): for every curated feature X the top-level module with
the corresponding name exists iff X is enabled; in addition the module
`colors` exists iff the (non-curated) feature `colors` is enabled, and the
only other modules are the unconditional `prelude` and shaped modules,
i.e. every module name is drawn from the fixed list `hubModuleNames`. -/
theorem C1_modules_iff_curated_features (s : FeatureSet) :
    curatedPairs.all (fun p => hubModuleExists s p.2 == s p.1) = true ∧
    hubModuleExists s "colors" = s "colors" ∧
    ∀ m, hubModuleExists s m = true → m ∈ hubModuleNames := by
  refine ⟨?_, ?_, fun m h => hubModuleExists_mem_names h⟩
  · simp [curatedPairs, hubModuleExists, hubDecls, preludeItems,
      Item.introducesModule, Cfg.eval]
  · simp [hubModuleExists, hubDecls, preludeItems, Item.introducesModule, Cfg.eval]

/-- C1 (witness): the amended theorem applied at the empty feature
selection and the module `prelude`. -/
theorem C1_witness : "prelude" ∈ hubModuleNames :=
  (C1_modules_iff_curated_features (fun _ => false)).2.2 "prelude" (by decide)

/-- C2 (counterexample): not every public item of hub denotes an item of a
wrapped third-party crate: `lib.rs` defines the function `version` (and
`enabled_features`), so the declaration list is not all re-exports. -/
theorem C2_counterexample :
    hubDecls.all Item.isWrappedReexportOnly = false ∧
    Item.fnDef "version" ∈ hubDecls ∧
    Item.isWrappedReexportOnly (Item.fnDef "version") = false := by
  decide

/-- C2 (amended): every top-level declaration of `lib.rs` is a re-export
or a module declaration except for the two utility functions `version` and
`enabled_features`, and every declaration of the shaped source files is a
re-export, a module of re-exports, or a convenience type alias. -/
theorem C2_modules_reexports_plus_utils :
    hubDecls.all (fun it => it.isReexport || it.isModDecl || it.isUtilFn) = true ∧
    shapedFileDecls.all (fun it => it.isReexport || it.isModDecl || it.isTypeAlias) = true := by
  decide

/-- C3: the eleven shaped convenience modules and the `prelude` module
exist under every feature selection, and a wrapped crate is a member of
`hub::prelude` exactly when it is re-exported at the top level, i.e. when
its feature is enabled. -/
theorem C3_shaped_modules_and_prelude (s : FeatureSet) :
    shapedModNames.all (fun n => hubModuleExists s n) = true ∧
    hubModuleExists s "prelude" = true ∧
    ∀ m, hubHasSubItem s "prelude" m = topCrateReexported s m := by
  refine ⟨?_, ?_, fun m => ?_⟩
  · simp [shapedModNames, hubModuleExists, hubDecls, preludeItems,
      Item.introducesModule, Cfg.eval]
  · simp [hubModuleExists, hubDecls, preludeItems, Item.introducesModule, Cfg.eval]
  · simp [hubHasSubItem, topCrateReexported, hubDecls, preludeItems,
      SubItem.definesName, Cfg.eval]

/-- C4: `enabled_features` is a pure function of the compile-time feature
selection: equal selections give equal lists, and the list returned is
exactly the enabled entries of the static feature table, in table order. -/
theorem C4_enabled_features_deterministic (s t : FeatureSet)
    (hst : ∀ n, s n = t n) :
    enabled_features s = enabled_features t ∧
    enabled_features s = featureTable.filter s ∧
    ∀ n, n ∈ enabled_features s ↔ (n ∈ featureTable ∧ s n = true) := by
  have hfun : s = t := funext hst
  subst hfun
  refine ⟨rfl, enabled_features_eq_filter s, fun n => ?_⟩
  rw [enabled_features_eq_filter]
  simp [List.mem_filter]

/-- C4 (witness): the determinism theorem applied at the selection
enabling exactly `serde`. -/
theorem C4_witness :
    enabled_features (fun n => n == "serde") =
      featureTable.filter (fun n => n == "serde") :=
  (C4_enabled_features_deterministic (fun n => n == "serde")
    (fun n => n == "serde") (fun _ => rfl)).2.1

/-- C5: feature gating is monotone: enlarging the feature selection
preserves every top-level module and every inline-module member, and
`enabled_features` of the smaller selection is a sublist (same order) of
`enabled_features` of the larger one. -/
theorem C5_feature_monotonicity (s t : FeatureSet)
    (hst : ∀ n, s n = true → t n = true) :
    (enabled_features s).Sublist (enabled_features t) ∧
    (∀ m, hubModuleExists s m = true → hubModuleExists t m = true) ∧
    ∀ p m, hubHasSubItem s p m = true → hubHasSubItem t p m = true := by
  refine ⟨?_, fun m => hubModuleExists_mono hst m, fun p m => hubHasSubItem_mono hst p m⟩
  rw [enabled_features_eq_filter, enabled_features_eq_filter]
  exact List.monotone_filter_right featureTable (fun a ha => hst a ha)

/-- C5 (witness): monotonicity applied to the empty selection below the
selection enabling exactly `serde`. -/
theorem C5_witness :
    (enabled_features (fun _ => false)).Sublist (enabled_features (fun n => n == "serde")) :=
  (C5_feature_monotonicity (fun _ => false) (fun n => n == "serde")
    (fun _ h => absurd h (by simp))).1

/-- C6: `lib.rs` declares no out-of-line module other than `colors`, so the
shaped source files are never wired in: under every feature selection the
paths `hub::regex`, `hub::serde`, `hub::serde_json`, `hub::chrono`,
`hub::clap` and `hub::tokio` resolve to the unmodified external crates
(when enabled), `hub::error` does not exist, and the curated additions of
the shaped files (the `Result`, `Error` and `Map` aliases) therefore sit in
declaration lists that resolution never consults. -/
theorem C6_shaped_files_unwired (s : FeatureSet) :
    hubDecls.all (fun it =>
      match it with
      | .modFile _ n => n == "colors"
      | _ => true) = true ∧
    resolveTop s "regex" = (if s "regex" then some (Target.crate "regex") else none) ∧
    resolveTop s "serde" = (if s "serde" then some (Target.crate "serde") else none) ∧
    resolveTop s "serde_json" = (if s "serde_json" then some (Target.crate "serde_json") else none) ∧
    resolveTop s "chrono" = (if s "chrono" then some (Target.crate "chrono") else none) ∧
    resolveTop s "clap" = (if s "clap" then some (Target.crate "clap") else none) ∧
    resolveTop s "tokio" = (if s "tokio" then some (Target.crate "tokio") else none) ∧
    resolveTop s "error" = none ∧
    Item.typeAlias Cfg.always "Result" ∈ regexFileDecls ∧
    Item.typeAlias (Cfg.feature "anyhow") "Result" ∈ errorFileDecls ∧
    Item.typeAlias (Cfg.feature "anyhow") "Error" ∈ errorFileDecls ∧
    Item.typeAlias Cfg.always "Map" ∈ serde_jsonFileDecls := by
  refine ⟨by decide, ?_, ?_, ?_, ?_, ?_, ?_, ?_, by decide, by decide, by decide, by decide⟩
  · cases h : s "regex" <;>
      simp [resolveTop, resolveIn, hubDecls, preludeItems, Item.resolves, Cfg.eval, h]
  · cases h : s "serde" <;>
      simp [resolveTop, resolveIn, hubDecls, preludeItems, Item.resolves, Cfg.eval, h]
  · cases h : s "serde_json" <;>
      simp [resolveTop, resolveIn, hubDecls, preludeItems, Item.resolves, Cfg.eval, h]
  · cases h : s "chrono" <;>
      simp [resolveTop, resolveIn, hubDecls, preludeItems, Item.resolves, Cfg.eval, h]
  · cases h : s "clap" <;>
      simp [resolveTop, resolveIn, hubDecls, preludeItems, Item.resolves, Cfg.eval, h]
  · cases h : s "tokio" <;>
      simp [resolveTop, resolveIn, hubDecls, preludeItems, Item.resolves, Cfg.eval, h]
  · simp [resolveTop, resolveIn, hubDecls, preludeItems, Item.resolves, Cfg.eval]

/-- C7: under every feature selection `enabled_features` returns a list
without duplicates that is a sublist (hence a subsequence in declaration
order) of the fixed 21-name universe, and no group or convenience feature
name ever appears in it. -/
theorem C7_enabled_features_universe (s : FeatureSet) :
    (enabled_features s).Nodup ∧
    (enabled_features s).Sublist featureTable ∧
    ∀ g, g ∈ groupFeatures → g ∉ enabled_features s := by
  refine ⟨?_, ?_, fun g hg => ?_⟩
  · rw [enabled_features_eq_filter]
    exact (by decide : featureTable.Nodup).filter _
  · rw [enabled_features_eq_filter]
    exact List.filter_sublist featureTable
  · have hnot : ∀ g ∈ groupFeatures, g ∉ featureTable := by decide
    exact not_mem_enabled_of_not_table (hnot g hg)

/-- C7 (witness): the universe theorem applied at the full selection and
the convenience feature `json`. -/
theorem C7_witness : "json" ∉ enabled_features (fun _ => true) :=
  (C7_enabled_features_universe (fun _ => true)).2.2 "json" (by decide)

/-- C8: the module `hub::error_ext` exists under every feature selection
and its only possible member is `anyhow`, present exactly when the
`anyhow` feature is enabled; `thiserror` is never a member of `error_ext`
even though it is re-exported at the top level when its feature is on. -/
theorem C8_error_ext_only_anyhow (s : FeatureSet) :
    hubModuleExists s "error_ext" = true ∧
    (∀ m, hubHasSubItem s "error_ext" m = (s "anyhow" && ("anyhow" == m))) ∧
    hubHasSubItem s "error_ext" "thiserror" = false ∧
    hubModuleExists s "thiserror" = s "thiserror" := by
  refine ⟨?_, fun m => ?_, ?_, ?_⟩
  · simp [hubModuleExists, hubDecls, preludeItems, Item.introducesModule, Cfg.eval]
  · simp [hubHasSubItem, hubDecls, preludeItems, SubItem.definesName, Cfg.eval]
  · simp [hubHasSubItem, hubDecls, preludeItems, SubItem.definesName, Cfg.eval]
  · simp [hubModuleExists, hubDecls, preludeItems, Item.introducesModule, Cfg.eval]

/-- C9: the static feature table is fully recoverable from the declaration
listing: the (feature, module) pairs extracted from the gated top-level
`pub use` lines are exactly the curated pairs, their feature components are
exactly the `enabled_features` push order, and both `enabled_features` and
top-level crate re-export existence are determined by that extracted
table. -/
theorem C9_static_table_from_listing :
    tableFromDecls = curatedPairs ∧
    featureTable = tableFromDecls.map Prod.fst ∧
    (∀ s : FeatureSet, enabled_features s = (tableFromDecls.map Prod.fst).filter s) ∧
    ∀ (s : FeatureSet) (m : String),
      topCrateReexported s m = tableFromDecls.any (fun p => s p.1 && (p.2 == m)) := by
  refine ⟨by decide, by decide, fun s => ?_, fun s m => ?_⟩
  · have h1 : tableFromDecls.map Prod.fst = featureTable := by decide
    rw [h1]
    exact enabled_features_eq_filter s
  · simp [topCrateReexported, tableFromDecls, hubDecls, preludeItems, Cfg.eval]

/-- C10: the curated set covers the categories the spec lists: under every
feature selection the serialization crate `serde`, the regex crate
`regex`, the date/time crate `chrono`, the CLI crate `clap`, the async
runtime `tokio` and the error-handling crates `anyhow` and `thiserror`
are each re-exported exactly when their feature is enabled. -/
theorem C10_categories_covered (s : FeatureSet) :
    hubModuleExists s "serde" = s "serde" ∧
    hubModuleExists s "regex" = s "regex" ∧
    hubModuleExists s "chrono" = s "chrono" ∧
    hubModuleExists s "clap" = s "clap" ∧
    hubModuleExists s "tokio" = s "tokio" ∧
    hubModuleExists s "anyhow" = s "anyhow" ∧
    hubModuleExists s "thiserror" = s "thiserror" := by
  refine ⟨?_, ?_, ?_, ?_, ?_, ?_, ?_⟩ <;>
    simp [hubModuleExists, hubDecls, preludeItems, Item.introducesModule, Cfg.eval]
